import Mathlib

/-!
Verification of the tcsss traffic-shaping daemon core against its
natural-language specification.  Each Go function relevant to the claims is
shallowly embedded as an executable Lean definition; theorems settle the
claims.  Go `float64` arithmetic in the memory-tier selector is embedded over
`ℚ` (the selector only multiplies by 0.8 and compares); machine integers are
embedded as `Int`; I/O boundaries (netlink, sysfs, external commands) are
embedded as explicit oracle functions supplied by an environment record.
-/

namespace Tcsss

/-! ## §1 syslimit: memory-tier selection (`internal/syslimit/sysctlconf.go`) -/

/-- Go `MemoryTierConfig` (content omitted — not consulted by selection). -/
structure MemoryTierConfig where
  MemoryMB : ℚ
  MemoryLabel : String
  Filename : String
  deriving DecidableEq, Repr

/-- Go constant `MemoryEffectivenessFactor = 0.8`. -/
def MemoryEffectivenessFactor : ℚ := 8 / 10

/-- Go constant `MaximumSupportedMemoryMB = 1024 * 1024 * 100`. -/
def MaximumSupportedMemoryMB : ℚ := 1024 * 1024 * 100

/-- Go `selectBestMemoryTier`: validates inputs, computes
`effectiveMemoryMB = systemMemoryMB * MemoryEffectivenessFactor` and walks the
tier list from the last (largest) entry down, returning the first tier whose
`MemoryMB ≤ effectiveMemoryMB`, else `tiers[0]`.  The downward index loop is
embedded as `find?` on the reversed list. -/
def selectBestMemoryTier (systemMemoryMB : ℚ) (tiers : List MemoryTierConfig) :
    Except String (MemoryTierConfig × ℚ) :=
  match tiers with
  | [] => .error "no memory tier configurations available"
  | t0 :: rest =>
    if systemMemoryMB ≤ 0 then
      .error "invalid system memory"
    else if MaximumSupportedMemoryMB < systemMemoryMB then
      .error "system memory exceeds supported range"
    else
      let effectiveMemoryMB := systemMemoryMB * MemoryEffectivenessFactor
      match (t0 :: rest).reverse.find? (fun t => t.MemoryMB ≤ effectiveMemoryMB) with
      | some t => .ok (t, effectiveMemoryMB)
      | none => .ok (t0, effectiveMemoryMB)

/-- Success test for `Except`. -/
def exceptOk {ε α : Type} : Except ε α → Bool
  | .ok _ => true
  | .error _ => false

lemma find?_rev_maximal {p : MemoryTierConfig → Bool} :
    ∀ (l : List MemoryTierConfig) (t : MemoryTierConfig),
      l.Sorted (fun a b => a.MemoryMB ≤ b.MemoryMB) →
      l.reverse.find? p = some t →
      t ∈ l ∧ p t = true ∧ ∀ u ∈ l, p u = true → u.MemoryMB ≤ t.MemoryMB := by
  intro l
  induction l using List.reverseRecOn with
  | nil => intro t _ h; simp at h
  | append_singleton xs x ih =>
    intro t hsorted hfind
    rw [List.reverse_append] at hfind
    simp only [List.reverse_singleton, List.singleton_append, List.find?] at hfind
    have hparts := List.pairwise_append.mp hsorted
    have hsorted' : xs.Sorted (fun a b => a.MemoryMB ≤ b.MemoryMB) := hparts.1
    have hbound : ∀ u ∈ xs, u.MemoryMB ≤ x.MemoryMB := by
      intro u hu
      exact hparts.2.2 u hu x (List.mem_singleton_self x)
    cases hpx : p x with
    | true =>
      rw [hpx] at hfind
      simp only [Option.some.injEq] at hfind
      subst hfind
      refine ⟨List.mem_append_right xs (List.mem_singleton_self x), hpx, ?_⟩
      intro u hu _
      rcases List.mem_append.mp hu with h | h
      · exact hbound u h
      · have : u = x := List.mem_singleton.mp h
        rw [this]
    | false =>
      rw [hpx] at hfind
      obtain ⟨hmem, hpt, hmax⟩ := ih t hsorted' hfind
      refine ⟨List.mem_append_left _ hmem, hpt, ?_⟩
      intro u hu hpu
      rcases List.mem_append.mp hu with h | h
      · exact hmax u h hpu
      · have hux : u = x := List.mem_singleton.mp h
        rw [hux] at hpu
        rw [hpu] at hpx
        cases hpx

/-- C1.  Memory-tier selection: for every non-empty tier list sorted ascending
by `MemoryMB` and every `systemMemoryMB` with
`0 < systemMemoryMB ≤ MaximumSupportedMemoryMB`, `selectBestMemoryTier`
returns the largest tier whose `MemoryMB ≤ 0.8 * systemMemoryMB` together
with `effectiveMemoryMB = 0.8 * systemMemoryMB`, or the smallest (first) tier
when no tier qualifies; and it returns an error exactly when
`systemMemoryMB ≤ 0`, `systemMemoryMB` exceeds `MaximumSupportedMemoryMB`,
or the tier list is empty. -/
theorem selectBestMemoryTier_spec (systemMemoryMB : ℚ) (tiers : List MemoryTierConfig)
    (hsorted : tiers.Sorted (fun a b => a.MemoryMB ≤ b.MemoryMB)) :
    (exceptOk (selectBestMemoryTier systemMemoryMB tiers) = true ↔
      tiers ≠ [] ∧ 0 < systemMemoryMB ∧ systemMemoryMB ≤ MaximumSupportedMemoryMB) ∧
    (tiers ≠ [] → 0 < systemMemoryMB → systemMemoryMB ≤ MaximumSupportedMemoryMB →
      ∃ t, selectBestMemoryTier systemMemoryMB tiers =
          .ok (t, systemMemoryMB * MemoryEffectivenessFactor) ∧
        ((t ∈ tiers ∧ t.MemoryMB ≤ systemMemoryMB * MemoryEffectivenessFactor ∧
            ∀ u ∈ tiers, u.MemoryMB ≤ systemMemoryMB * MemoryEffectivenessFactor →
              u.MemoryMB ≤ t.MemoryMB) ∨
          ((∀ u ∈ tiers, ¬ u.MemoryMB ≤ systemMemoryMB * MemoryEffectivenessFactor) ∧
            tiers.head? = some t))) := by
  constructor
  · cases tiers with
    | nil => simp [selectBestMemoryTier, exceptOk]
    | cons t0 rest =>
      simp only [selectBestMemoryTier]
      split_ifs with h1 h2
      · simp [exceptOk, not_lt.mpr h1]
      · simp [exceptOk, not_le.mpr h2]
      · have h0 : 0 < systemMemoryMB := not_le.mp h1
        have hM : systemMemoryMB ≤ MaximumSupportedMemoryMB := not_lt.mp h2
        cases hfind : (t0 :: rest).reverse.find?
            (fun t => t.MemoryMB ≤ systemMemoryMB * MemoryEffectivenessFactor) with
        | some t => simp [hfind, exceptOk, h0, hM]
        | none => simp [hfind, exceptOk, h0, hM]
  · intro hne hpos hle
    cases tiers with
    | nil => exact absurd rfl hne
    | cons t0 rest =>
      simp only [selectBestMemoryTier, not_le.mpr hpos, if_false, not_lt.mpr hle]
      cases hfind : (t0 :: rest).reverse.find?
          (fun t => t.MemoryMB ≤ systemMemoryMB * MemoryEffectivenessFactor) with
      | some t =>
        refine ⟨t, rfl, .inl ?_⟩
        obtain ⟨hmem, hpt, hmax⟩ := find?_rev_maximal (t0 :: rest) t hsorted hfind
        refine ⟨hmem, of_decide_eq_true hpt, ?_⟩
        intro u hu hule
        exact hmax u hu (decide_eq_true hule)
      | none =>
        refine ⟨t0, rfl, .inr ⟨?_, rfl⟩⟩
        intro u hu hule
        have := List.find?_eq_none.mp hfind u (List.mem_reverse.mpr hu)
        exact this (decide_eq_true hule)

/-- Concrete witness for C1: tiers 1 GB / 4 GB / 8 GB / 12 GB with 8192 MB of
system memory (spec scenario A): the 4 GB tier is selected at effective
6553.6 MB. -/
theorem selectBestMemoryTier_spec_witness :
    (([⟨1024, "1gb", "limits_1gb.conf"⟩, ⟨4096, "4gb", "limits_4gb.conf"⟩,
       ⟨8192, "8gb", "limits_8gb.conf"⟩, ⟨12288, "12gb", "limits_12gb.conf"⟩] :
        List MemoryTierConfig).Sorted (fun a b => a.MemoryMB ≤ b.MemoryMB)) ∧
    (exceptOk (selectBestMemoryTier 8192
        [⟨1024, "1gb", "limits_1gb.conf"⟩, ⟨4096, "4gb", "limits_4gb.conf"⟩,
         ⟨8192, "8gb", "limits_8gb.conf"⟩, ⟨12288, "12gb", "limits_12gb.conf"⟩]) = true ↔
      ([⟨1024, "1gb", "limits_1gb.conf"⟩, ⟨4096, "4gb", "limits_4gb.conf"⟩,
        ⟨8192, "8gb", "limits_8gb.conf"⟩, ⟨12288, "12gb", "limits_12gb.conf"⟩] :
         List MemoryTierConfig) ≠ [] ∧ (0 : ℚ) < 8192 ∧
        (8192 : ℚ) ≤ MaximumSupportedMemoryMB) := by
  refine ⟨by decide, ?_⟩
  exact (selectBestMemoryTier_spec 8192
    [⟨1024, "1gb", "limits_1gb.conf"⟩, ⟨4096, "4gb", "limits_4gb.conf"⟩,
     ⟨8192, "8gb", "limits_8gb.conf"⟩, ⟨12288, "12gb", "limits_12gb.conf"⟩]
    (by decide)).1

/-! ## §2 traffic: shaping profiles and desired-state signatures
(`part_004`, `part_005`, `part_006` of the split `traffic` package).

Go strings are embedded as `String` over their character data (all data
involved is ASCII, where Go's byte-wise operations coincide with the
character-wise ones used here).  `strToLower`, `strTrimSpace`, `chListLe`
embed `strings.ToLower`, `strings.TrimSpace` and the byte-wise `<` used by
`sort.Strings`. -/

/-- Model of Go `strings.ToLower` (ASCII). -/
def strToLower (s : String) : String := String.mk (s.data.map Char.toLower)

/-- Model of Go `strings.TrimSpace`. -/
def strTrimSpace (s : String) : String :=
  String.mk (((s.data.dropWhile Char.isWhitespace).reverse.dropWhile Char.isWhitespace).reverse)

/-- Lexicographic comparison of character lists: model of Go's `<` on strings
(byte-wise; identical on ASCII data). -/
def chListLe : List Char → List Char → Bool
  | [], _ => true
  | _ :: _, [] => false
  | a :: as, b :: bs =>
    if a.toNat < b.toNat then true
    else if b.toNat < a.toNat then false
    else chListLe as bs

/-- Go string `<=`, used by `sort.Strings`. -/
def strLe (a b : String) : Bool := chListLe a.data b.data

/-- Model of Go `sort.Strings` (any sorting algorithm: the result is the
unique sorted permutation, see `sortStrings_perm_congr`). -/
def sortStrings (l : List String) : List String :=
  List.insertionSort (fun a b => strLe a b = true) l

lemma charToNat_inj {a b : Char} (h : a.toNat = b.toNat) : a = b := by
  apply Char.ext
  apply UInt32.ext
  exact h

lemma chListLe_cons_iff (a b : Char) (as bs : List Char) :
    chListLe (a :: as) (b :: bs) = true ↔
      (a.toNat < b.toNat ∨ (a.toNat = b.toNat ∧ chListLe as bs = true)) := by
  simp only [chListLe]
  by_cases hab : a.toNat < b.toNat
  · simp [hab]
  · by_cases hba : b.toNat < a.toNat
    · simp [hab, hba]; omega
    · have heq : a.toNat = b.toNat := by omega
      simp [hab, hba, heq]

lemma chListLe_total : ∀ x y : List Char, chListLe x y = true ∨ chListLe y x = true
  | [], _ => .inl rfl
  | _ :: _, [] => .inr rfl
  | a :: as, b :: bs => by
    rcases Nat.lt_trichotomy a.toNat b.toNat with h | h | h
    · left; exact (chListLe_cons_iff a b as bs).mpr (.inl h)
    · rcases chListLe_total as bs with hr | hr
      · left; exact (chListLe_cons_iff a b as bs).mpr (.inr ⟨h, hr⟩)
      · right; exact (chListLe_cons_iff b a bs as).mpr (.inr ⟨h.symm, hr⟩)
    · right; exact (chListLe_cons_iff b a bs as).mpr (.inl h)

lemma chListLe_antisymm : ∀ x y : List Char,
    chListLe x y = true → chListLe y x = true → x = y
  | [], [] => by intro _ _; rfl
  | [], _ :: _ => by intro _ h; simp [chListLe] at h
  | _ :: _, [] => by intro h _; simp [chListLe] at h
  | a :: as, b :: bs => by
    intro h1 h2
    rcases (chListLe_cons_iff a b as bs).mp h1 with h1' | ⟨he1, hr1⟩ <;>
      rcases (chListLe_cons_iff b a bs as).mp h2 with h2' | ⟨he2, hr2⟩
    · omega
    · omega
    · omega
    · rw [charToNat_inj he1, chListLe_antisymm as bs hr1 hr2]

lemma chListLe_trans : ∀ x y z : List Char,
    chListLe x y = true → chListLe y z = true → chListLe x z = true
  | [], _, _ => by intro _ _; rfl
  | _ :: _, [], _ => by intro h _; simp [chListLe] at h
  | _ :: _, _ :: _, [] => by intro _ h; simp [chListLe] at h
  | a :: as, b :: bs, c :: cs => by
    intro h1 h2
    rcases (chListLe_cons_iff a b as bs).mp h1 with h1' | ⟨he1, hr1⟩ <;>
      rcases (chListLe_cons_iff b c bs cs).mp h2 with h2' | ⟨he2, hr2⟩
    · exact (chListLe_cons_iff a c as cs).mpr (.inl (by omega))
    · exact (chListLe_cons_iff a c as cs).mpr (.inl (by omega))
    · exact (chListLe_cons_iff a c as cs).mpr (.inl (by omega))
    · exact (chListLe_cons_iff a c as cs).mpr
        (.inr ⟨by omega, chListLe_trans as bs cs hr1 hr2⟩)

instance : IsTotal String (fun a b => strLe a b = true) :=
  ⟨fun a b => chListLe_total a.data b.data⟩

instance : IsTrans String (fun a b => strLe a b = true) :=
  ⟨fun a b c => chListLe_trans a.data b.data c.data⟩

instance : IsAntisymm String (fun a b => strLe a b = true) :=
  ⟨fun a b h1 h2 => String.ext (chListLe_antisymm a.data b.data h1 h2)⟩

/-- Sorting is invariant under permutation of the input. -/
lemma sortStrings_perm_congr (l1 l2 : List String) (hp : l1.Perm l2) :
    sortStrings l1 = sortStrings l2 :=
  List.eq_of_perm_of_sorted
    (((List.perm_insertionSort _ l1).trans hp).trans (List.perm_insertionSort _ l2).symm)
    (List.sorted_insertionSort _ l1) (List.sorted_insertionSort _ l2)

/-- Go `offloadSetting` (`part_004`). -/
structure offloadSetting where
  feature : String
  state : String
  deriving DecidableEq, Repr

/-- Go `shapingProfile` (`part_004`); `mtuOverride = ""` is the unset zero
value. -/
structure shapingProfile where
  queueLength : String
  rootQdisc : List String
  ifbQdisc : List String
  offloads : List offloadSetting
  mtuOverride : String
  deriving DecidableEq, Repr

/-- Go `normalizeSetFeatureName` (`part_005`): maps checksum aliases to the
canonical `ethtool -K` names and lowercases everything else. -/
def normalizeSetFeatureName (name : String) : String :=
  let key := strToLower (strTrimSpace name)
  if key = "rx-checksum" ∨ key = "rx_checksum" then "rx"
  else if key = "tx-checksum" ∨ key = "tx_checksum" then "tx"
  else key

/-- The `fmt.Sprintf("%s=%s", normalizeSetFeatureName(o.feature),
strings.ToLower(o.state))` pair rendering inside Go `makeSignature`. -/
def renderOffloadPair (o : offloadSetting) : String :=
  normalizeSetFeatureName o.feature ++ "=" ++ strToLower o.state

/-- Go `makeSignature` (`part_006`): deterministic desired-state string. -/
def makeSignature (mtu qlen : String) (profile : shapingProfile) : String :=
  "mtu=" ++ mtu ++ ";qlen=" ++ qlen
    ++ ";root=" ++ String.intercalate "," profile.rootQdisc
    ++ ";ifb=" ++ String.intercalate "," profile.ifbQdisc
    ++ ";off="
    ++ (if 0 < profile.offloads.length then
          String.intercalate "," (sortStrings (profile.offloads.map renderOffloadPair))
        else "")

/-- Go `offloadPrefix` (`part_004`): fixed leading offload settings. -/
def offloadPre : List offloadSetting :=
  [⟨"rx", "on"⟩, ⟨"tx", "on"⟩, ⟨"sg", "off"⟩, ⟨"tso", "off"⟩, ⟨"gso", "off"⟩]

/-- Go `offloadSuffix` (`part_004`): fixed trailing offload settings. -/
def offloadSuf : List offloadSetting :=
  [⟨"lro", "off"⟩, ⟨"ufo", "off"⟩, ⟨"rx-checksum", "on"⟩, ⟨"tx-checksum", "on"⟩,
   ⟨"tx-scatter-gather", "off"⟩, ⟨"tx-gso-partial", "off"⟩]

/-- Go `offloadsWithGro` (`part_004`). -/
def offloadsWithGro (state : String) : List offloadSetting :=
  offloadPre ++ [⟨"gro", state⟩] ++ offloadSuf

lemma forall₂_map_eq {α β : Type} {f : α → β} {l l' : List α}
    (R : α → α → Prop) (h : List.Forall₂ R l l')
    (hf : ∀ a a', R a a' → f a = f a') : l.map f = l'.map f := by
  induction h with
  | nil => rfl
  | cons hR _ ih => simp [List.map, hf _ _ hR, ih]

/-- C2.  Signature computation: the signature is determined by mtu, qlen, the
qdisc token vectors and the multiset of offload pairs, so two independent
computations on the same inputs agree and any permutation of the profile's
offload list yields the same signature; on the scenario-D profile
(qlen 10001, mtu 1500, root cake,unlimited,besteffort,
ifb cake,unlimited,diffserv4, offloads rx on / tx on / gro off) the result is
`mtu=1500;qlen=10001;root=cake,unlimited,besteffort;ifb=cake,unlimited,diffserv4;off=gro=off,rx=on,tx=on`. -/
theorem makeSignature_spec :
    (∀ (mtu qlen : String) (p p' : shapingProfile),
      p.rootQdisc = p'.rootQdisc → p.ifbQdisc = p'.ifbQdisc →
      p.offloads.Perm p'.offloads →
      makeSignature mtu qlen p = makeSignature mtu qlen p') ∧
    makeSignature "1500" "10001"
      ⟨"10001", ["cake", "unlimited", "besteffort"], ["cake", "unlimited", "diffserv4"],
        [⟨"rx", "on"⟩, ⟨"tx", "on"⟩, ⟨"gro", "off"⟩], ""⟩ =
      "mtu=1500;qlen=10001;root=cake,unlimited,besteffort;ifb=cake,unlimited,diffserv4;off=gro=off,rx=on,tx=on" := by
  constructor
  · intro mtu qlen p p' hroot hifb hperm
    unfold makeSignature
    rw [hroot, hifb, hperm.length_eq,
      sortStrings_perm_congr _ _ (hperm.map renderOffloadPair)]
  · decide

/-- Witness for C2: re-ordering the scenario-D offload list leaves the
signature unchanged. -/
theorem makeSignature_spec_witness :
    makeSignature "1500" "10001"
      ⟨"10001", ["cake", "unlimited", "besteffort"], ["cake", "unlimited", "diffserv4"],
        [⟨"rx", "on"⟩, ⟨"tx", "on"⟩, ⟨"gro", "off"⟩], ""⟩ =
    makeSignature "1500" "10001"
      ⟨"10001", ["cake", "unlimited", "besteffort"], ["cake", "unlimited", "diffserv4"],
        [⟨"gro", "off"⟩, ⟨"tx", "on"⟩, ⟨"rx", "on"⟩], ""⟩ :=
  makeSignature_spec.1 "1500" "10001" _ _ rfl rfl (by decide)

/-- C9 (implicit).  Signature alias collapsing: `makeSignature` records each
offload feature under its normalized `ethtool -K` set-name with a lowercased
state, so profiles whose offload lists differ only in the checksum alias
spellings or in letter case produce equal signatures; in the built-in
profiles both `rx` and `rx-checksum` (and `tx` and `tx-checksum`) render as
the same pair. -/
theorem makeSignature_alias_spec :
    (∀ (mtu qlen : String) (p p' : shapingProfile),
      p.rootQdisc = p'.rootQdisc → p.ifbQdisc = p'.ifbQdisc →
      List.Forall₂ (fun o o' =>
        normalizeSetFeatureName o.feature = normalizeSetFeatureName o'.feature ∧
        strToLower o.state = strToLower o'.state) p.offloads p'.offloads →
      makeSignature mtu qlen p = makeSignature mtu qlen p') ∧
    normalizeSetFeatureName "rx-checksum" = "rx" ∧
    normalizeSetFeatureName "rx_checksum" = "rx" ∧
    normalizeSetFeatureName "tx-checksum" = "tx" ∧
    normalizeSetFeatureName "tx_checksum" = "tx" ∧
    (⟨"rx", "on"⟩ : offloadSetting) ∈ offloadsWithGro "on" ∧
    (⟨"rx-checksum", "on"⟩ : offloadSetting) ∈ offloadsWithGro "on" ∧
    renderOffloadPair ⟨"rx", "on"⟩ = "rx=on" ∧
    renderOffloadPair ⟨"rx-checksum", "on"⟩ = "rx=on" ∧
    (⟨"tx", "on"⟩ : offloadSetting) ∈ offloadsWithGro "on" ∧
    (⟨"tx-checksum", "on"⟩ : offloadSetting) ∈ offloadsWithGro "on" ∧
    renderOffloadPair ⟨"tx", "on"⟩ = "tx=on" ∧
    renderOffloadPair ⟨"tx-checksum", "on"⟩ = "tx=on" := by
  refine ⟨?_, by decide, by decide, by decide, by decide, by decide, by decide,
    by decide, by decide, by decide, by decide, by decide, by decide⟩
  intro mtu qlen p p' hroot hifb hall
  unfold makeSignature
  rw [hroot, hifb, hall.length_eq,
    forall₂_map_eq _ hall (fun o o' ho => by
      unfold renderOffloadPair
      rw [ho.1, ho.2])]

/-- Witness for C9: an offload list written with aliased, mixed-case
spellings gives the same signature as the canonical one. -/
theorem makeSignature_alias_spec_witness :
    makeSignature "1500" "10001"
      ⟨"10001", ["cake"], ["cake"], [⟨"rx", "on"⟩, ⟨"tx", "on"⟩], ""⟩ =
    makeSignature "1500" "10001"
      ⟨"10001", ["cake"], ["cake"], [⟨"Rx_Checksum", "ON"⟩, ⟨"tx-checksum", "On"⟩], ""⟩ :=
  makeSignature_alias_spec.1 "1500" "10001" _ _ rfl rfl
    (List.Forall₂.cons ⟨by decide, by decide⟩
      (List.Forall₂.cons ⟨by decide, by decide⟩ List.Forall₂.nil))

/-! ## §3 traffic: interface classification (`classifier.go`,
`classifier_patterns.go`, `classifier_detect.go`) and IFB naming
(`ifb_manager.go`, `part_007`).

Sysfs and the route-table cache are I/O; they are embedded as an environment
record of oracle functions: `resolvedSysfs` is the result of
`filepath.EvalSymlinks("/sys/class/net/NAME")` (`none` on error),
`driverModule` the basename extracted by `interfaceDriverModule` (`""` when
absent), `vendor` the trimmed content read by `interfaceVendor` (`""` when
absent), and `externalLinkIndexes` the cached default-route link-index set. -/

/-- Go `ifaceClass`. -/
inductive ifaceClass where
  | unknown
  | loopback
  | externalPhysical
  | externalVirtual
  | internalVirtual
  | internalVirtualSkip
  deriving DecidableEq, Repr

/-- Model of Go `strings.HasPrefix p s` is `strHasPre s p` here:
`strHasPre s p = true` iff `p` starts `s`. -/
def strHasPre (s p : String) : Bool := p.data.isPrefixOf s.data

/-- Go `internalVirtualPrefixes`. -/
def internalVirtualPres : List String :=
  ["br", "docker", "veth", "virbr", "fwbr", "fwpr", "fwln", "tap"]

/-- Go `externalVirtualPrefixes`. -/
def externalVirtualPres : List String :=
  ["tun", "tap", "wg", "zt", "gre", "gretap", "sit", "vxlan", "macvlan", "macvtap", "ipvlan"]

/-- Go `hasInternalVirtualPrefix`. -/
def hasInternalVirtualPre (name : String) : Bool :=
  internalVirtualPres.any (fun p => strHasPre name p)

/-- Go `hasExternalVirtualPrefix`. -/
def hasExternalVirtualPre (name : String) : Bool :=
  externalVirtualPres.any (fun p => strHasPre name p)

/-- Go `virtualVendorIDs` key set. -/
def virtualVendorIDs : List String :=
  ["0x1414", "0x15ad", "0x1af4", "0x1d0f", "0x1ae0", "0x1ec1", "0x5853"]

/-- Go `virtualDriverModules` key set. -/
def virtualDriverModules : List String :=
  ["ena", "gve", "hv_netvsc", "netvsc", "virtio_net", "virtio_pci", "vmxnet3"]

/-- Go `normalizeIdentifier`: trim, lowercase, map `-` to `_`. -/
def normalizeIdentifier (value : String) : String :=
  String.mk ((strToLower (strTrimSpace value)).data.map (fun c => if c = '-' then '_' else c))

/-- Infix test on character lists. -/
def chIsInfixOf (sub : List Char) : List Char → Bool
  | [] => sub.isEmpty
  | c :: cs => sub.isPrefixOf (c :: cs) || chIsInfixOf sub cs

/-- Model of Go `strings.Contains s sub` is `strContainsSub s sub`. -/
def strContainsSub (s sub : String) : Bool := chIsInfixOf sub.data s.data

/-- Split a character list on a separator: model of Go `strings.Split` on a
single-character separator. -/
def chSplit (sep : Char) : List Char → List (List Char)
  | [] => [[]]
  | c :: cs =>
    match chSplit sep cs with
    | [] => [[c]]
    | seg :: rest => if c = sep then [] :: seg :: rest else (c :: seg) :: rest

/-- Go `isSysfsVirtualPath`. -/
def isSysfsVirtualPath (resolvedPath : String) : Bool :=
  let lower := strToLower resolvedPath
  if strContainsSub lower "/sys/devices/virtual/" then true
  else
    (chSplit '/' lower.data).any (fun seg =>
      let s := String.mk seg
      s = "virtio" || strHasPre s "virtio" || s = "vmbus")

/-- Classifier environment: the sysfs / route-table oracles (see the section
comment). -/
structure ClassifierEnv where
  resolvedSysfs : String → Option String
  driverModule : String → String
  vendor : String → String
  externalLinkIndexes : Int → Bool

/-- The link attributes consulted by the traffic package (`netlink.LinkAttrs`
projection): name, index, the Loopback and Up flag bits, MTU, TxQLen. -/
structure LinkAttrs where
  name : String
  index : Int
  loopbackFlag : Bool
  up : Bool
  mtu : Int
  txqlen : Int
  deriving DecidableEq, Repr

/-- Go `detectVirtualHardware` (`classifier_detect.go`). -/
def detectVirtualHardware (env : ClassifierEnv) (name : String) : Bool :=
  if hasInternalVirtualPre name || hasExternalVirtualPre name then true
  else if (match env.resolvedSysfs name with
           | some p => isSysfsVirtualPath p
           | none => false) then true
  else if env.driverModule name ≠ "" &&
      virtualDriverModules.contains (normalizeIdentifier (env.driverModule name)) then true
  else if env.vendor name ≠ "" &&
      virtualVendorIDs.contains (normalizeIdentifier (env.vendor name)) then true
  else false

/-- Go `isVirtualInterface`: empty name is never virtual; the per-name cache
is a transparent memoization of `detectVirtualHardware` in a fixed
snapshot. -/
def isVirtualInterface (env : ClassifierEnv) (name : String) : Bool :=
  if name = "" then false else detectVirtualHardware env name

/-- Go `isExternalInterface` (`classifier_cache.go`). -/
def isExternalInterface (env : ClassifierEnv) (linkIndex : Int) (name : String) : Bool :=
  if hasExternalVirtualPre name then true
  else if linkIndex ≤ 0 then false
  else env.externalLinkIndexes linkIndex

/-- Go `InterfaceClassifier.Classify` (`classifier.go`) for non-nil attrs. -/
def Classify (env : ClassifierEnv) (attrs : LinkAttrs) : ifaceClass :=
  if attrs.loopbackFlag then .loopback
  else if attrs.name = "" then .unknown
  else if hasInternalVirtualPre attrs.name then .internalVirtualSkip
  else
    let isVirtual := isVirtualInterface env attrs.name
    let isExternal := isExternalInterface env attrs.index attrs.name
    if isExternal then
      if isVirtual then .externalVirtual else .externalPhysical
    else if isVirtual then .internalVirtual
    else .externalPhysical

/-- The classification decision procedure exactly as the claim states it
(spec wording): loopback flag, then skip prefixes, then the
external/virtual combination table with `ExternalPhysical` fallback. -/
def classifyClaim (env : ClassifierEnv) (attrs : LinkAttrs) : ifaceClass :=
  if attrs.loopbackFlag then .loopback
  else if hasInternalVirtualPre attrs.name then .internalVirtualSkip
  else
    let isVirtual := isVirtualInterface env attrs.name
    let isExternal := isExternalInterface env attrs.index attrs.name
    if isExternal && isVirtual then .externalVirtual
    else if isExternal && !isVirtual then .externalPhysical
    else if !isExternal && isVirtual then .internalVirtual
    else .externalPhysical

/-- Environment with no sysfs data, a `virtio_net` driver module reported
for `ens3` only, and an empty default-route cache. -/
def envVirtioNoRoute : ClassifierEnv :=
  ⟨fun _ => none, fun n => if n = "ens3" then "virtio_net" else "", fun _ => "", fun _ => false⟩

/-- Environment where only link index 2 has a default route and nothing is
virtual. -/
def envRouteOnly2 : ClassifierEnv :=
  ⟨fun _ => none, fun _ => "", fun _ => "", fun i => i = 2⟩

/-- Counterexample to C5 as stated: a link whose attrs carry an empty name
(and no loopback flag) classifies as `Unknown` in the code, while the
claim's decision table ends `otherwise ExternalPhysical`. -/
theorem Classify_emptyName_counterexample :
    Classify envRouteOnly2 ⟨"", 2, false, true, 1500, 1000⟩ = .unknown ∧
    classifyClaim envRouteOnly2 ⟨"", 2, false, true, 1500, 1000⟩ = .externalPhysical ∧
    Classify envRouteOnly2 ⟨"", 2, false, true, 1500, 1000⟩ ≠
      classifyClaim envRouteOnly2 ⟨"", 2, false, true, 1500, 1000⟩ := by
  decide

/-- C5 (amended).  For every link attrs with a non-empty name, `Classify`
follows the claim's decision procedure: `Loopback` on the loopback flag;
else `InternalVirtualSkip` on the skip name prefixes; else the
external/virtual combination table with `ExternalPhysical` as the fallback;
attrs with an empty name (and no loopback flag) classify as `Unknown`.
In particular `wg0` with no default route is `ExternalVirtual`, and `ens3`
with driver module `virtio_net` and no default route is `InternalVirtual`. -/
theorem Classify_spec :
    (∀ (env : ClassifierEnv) (attrs : LinkAttrs), attrs.name ≠ "" →
      Classify env attrs = classifyClaim env attrs) ∧
    Classify envVirtioNoRoute ⟨"wg0", 4, false, true, 1420, 1000⟩ = .externalVirtual ∧
    Classify envVirtioNoRoute ⟨"ens3", 3, false, true, 1500, 1000⟩ = .internalVirtual := by
  refine ⟨?_, by decide, by decide⟩
  intro env attrs hname
  unfold Classify classifyClaim
  cases hl : attrs.loopbackFlag with
  | true => simp
  | false =>
    simp only [Bool.false_eq_true, if_false, hname, if_false]
    cases hp : hasInternalVirtualPre attrs.name with
    | true => simp
    | false =>
      cases hE : isExternalInterface env attrs.index attrs.name with
      | true =>
        cases hV : isVirtualInterface env attrs.name with
        | true => simp [hE, hV]
        | false => simp [hE, hV]
      | false =>
        cases hV : isVirtualInterface env attrs.name with
        | true => simp [hE, hV]
        | false => simp [hE, hV]

/-- Witness for C5: the amended equivalence applied to the concrete `wg0`
link. -/
theorem Classify_spec_witness :
    ("wg0" : String) ≠ "" ∧
    Classify envVirtioNoRoute ⟨"wg0", 4, false, true, 1420, 1000⟩ =
      classifyClaim envVirtioNoRoute ⟨"wg0", 4, false, true, 1420, 1000⟩ :=
  ⟨by decide, Classify_spec.1 envVirtioNoRoute ⟨"wg0", 4, false, true, 1420, 1000⟩ (by decide)⟩

/-- Go constant `IfbPrefix = "ifb4"` (`constants.go`). -/
def ifbPre : String := "ifb4"

/-- Go `truncateIfb` (`ifb_manager.go`): keep only the first 15 characters. -/
def truncateIfb (name : String) : String :=
  if name.length ≤ 15 then name else String.mk (name.data.take 15)

/-- Set insertion into the Go `map[string]struct\x7b\x7d` of required IFBs,
modelled as a duplicate-free list. -/
def insertName (s : List String) (n : String) : List String :=
  if s.contains n then s else s ++ [n]

/-- Go `determineRequiredIfbs` (`part_007`): every non-IFB, non-skipped link
of a shaped class contributes its truncated IFB name. -/
def determineRequiredIfbs (env : ClassifierEnv) (links : List LinkAttrs) : List String :=
  links.foldl (fun acc attrs =>
    if attrs.name = "" then acc
    else if strHasPre attrs.name "ifb" then acc
    else
      match Classify env attrs with
      | .loopback | .externalPhysical | .externalVirtual | .internalVirtual =>
          insertName acc (truncateIfb (ifbPre ++ attrs.name))
      | _ => acc) []

lemma truncateIfb_ifb4_eq (n : String) (h : 11 ≤ n.data.length) :
    truncateIfb (ifbPre ++ n) = String.mk ('i' :: 'f' :: 'b' :: '4' :: n.data.take 11) := by
  have hdata : (ifbPre ++ n).data = 'i' :: 'f' :: 'b' :: '4' :: n.data := rfl
  have hlen : (ifbPre ++ n).length = 4 + n.data.length := by
    have hl : (ifbPre ++ n).length = (ifbPre ++ n).data.length := rfl
    rw [hl, hdata]
    simp [List.length_cons]
    omega
  unfold truncateIfb
  by_cases hle : (ifbPre ++ n).length ≤ 15
  · have h11 : n.data.length = 11 := by omega
    have htake : n.data.take 11 = n.data := by
      rw [← h11]
      exact List.take_length n.data
    simp only [hle, if_true, htake]
    apply String.ext
    rw [hdata]
  · simp only [hle, if_false, hdata]
    have : ('i' :: 'f' :: 'b' :: '4' :: n.data).take 15 = 'i' :: 'f' :: 'b' :: '4' :: n.data.take 11 := by
      simp [List.take_cons]
    rw [this]

/-- C10 (implicit).  IFB naming is not injective: `truncateIfb` keeps only
the first 15 characters of `"ifb4" ++ name`, so two distinct names of length
at least 11 agreeing on their first 11 characters map to the same IFB name,
and the required-IFB set computed over both base links collapses to at most
one entry. -/
theorem truncateIfb_collision (n1 n2 : String) (hne : n1 ≠ n2)
    (h1 : 11 ≤ n1.data.length) (h2 : 11 ≤ n2.data.length)
    (hpre : n1.data.take 11 = n2.data.take 11) :
    truncateIfb (ifbPre ++ n1) = truncateIfb (ifbPre ++ n2) ∧
    ∀ (env : ClassifierEnv) (a1 a2 : LinkAttrs), a1.name = n1 → a2.name = n2 →
      (determineRequiredIfbs env [a1, a2]).length ≤ 1 := by
  have hcoll : truncateIfb (ifbPre ++ n1) = truncateIfb (ifbPre ++ n2) := by
    rw [truncateIfb_ifb4_eq n1 h1, truncateIfb_ifb4_eq n2 h2, hpre]
  refine ⟨hcoll, ?_⟩
  intro env a1 a2 ha1 ha2
  unfold determineRequiredIfbs
  simp only [List.foldl]
  have step : ∀ (acc : List String) (a : LinkAttrs),
      (if a.name = "" then acc
       else if strHasPre a.name "ifb" then acc
       else
         match Classify env a with
         | .loopback | .externalPhysical | .externalVirtual | .internalVirtual =>
             insertName acc (truncateIfb (ifbPre ++ a.name))
         | _ => acc) = acc ∨
      (if a.name = "" then acc
       else if strHasPre a.name "ifb" then acc
       else
         match Classify env a with
         | .loopback | .externalPhysical | .externalVirtual | .internalVirtual =>
             insertName acc (truncateIfb (ifbPre ++ a.name))
         | _ => acc) = insertName acc (truncateIfb (ifbPre ++ a.name)) := by
    intro acc a
    by_cases he : a.name = ""
    · left; simp [he]
    · by_cases hi : strHasPre a.name "ifb"
      · left; simp [he, hi]
      · cases hc : Classify env a <;> simp [he, hi, hc]
  rcases step [] a1 with hs1 | hs1 <;> rcases step (if a1.name = "" then []
       else if strHasPre a1.name "ifb" then []
       else
         match Classify env a1 with
         | .loopback | .externalPhysical | .externalVirtual | .internalVirtual =>
             insertName [] (truncateIfb (ifbPre ++ a1.name))
         | _ => []) a2 with hs2 | hs2 <;> rw [hs2, hs1] <;>
    simp [insertName, ha1, ha2, hcoll]

/-- Witness for C10: two 14/15-character names sharing their first 11
characters collide. -/
theorem truncateIfb_collision_witness :
    truncateIfb (ifbPre ++ "verylongname01") = truncateIfb (ifbPre ++ "verylongname02x") :=
  (truncateIfb_collision "verylongname01" "verylongname02x" (by decide) (by decide)
    (by decide) (by decide)).1

/-! ## §4 traffic: per-interface profile application (`part_006`,
`shaper_steps.go`, `ifb_manager.go`, `tc_config.go`, `part_005`).

The netlink client and the external command executor are I/O; they are
embedded as oracle functions in `ShaperWorld`.  Every external command
(`tc`/`ip`/`ethtool`) and every netlink mutation (`LinkSetMTU`,
`LinkSetTxQLen`, `LinkDel`) executed by the code is recorded as an `Action`;
pure reads (`LinkByName`, parsed `ethtool -k` output) are answered by the
world and not recorded.  The `ethtoolRead` oracle returns the parsed result
of `readEthtoolFeatures` (feature-state map and fixed map), `none` when the
command failed or printed nothing. -/

/-- Go `errors.Category` (`internal/errors/context.go`). -/
inductive Category where
  | critical
  | recoverable
  | optional
  deriving DecidableEq, Repr

/-- A categorized error (`internal/errors` `Error`, message flattened). -/
structure TErr where
  category : Category
  msg : String
  deriving DecidableEq, Repr

/-- A recorded side effect: an external command or a netlink mutation. -/
inductive Action where
  | runCmd (name : String) (args : List String)
  | linkSetMTU (iface : String) (mtu : Int)
  | linkSetTxQLen (iface : String) (qlen : Int)
  | linkDel (name : String)
  deriving DecidableEq, Repr

/-- Result of a `LinkByName` / `LinkByIndex` netlink lookup. -/
inductive LinkLookup where
  | found (attrs : LinkAttrs)
  | notFound
  | failed
  deriving DecidableEq, Repr

/-- Oracles answering the reads performed during one profile application. -/
structure ShaperWorld where
  linkByName : String → LinkLookup
  linkByNameAfterCreate : String → LinkLookup
  linkByNameAfterSet : String → LinkLookup
  linkSetMTUOk : String → Int → Bool
  linkSetTxQLenOk : String → Int → Bool
  runOk : String → List String → Bool
  ethtoolRead : String → Option ((String → Option String) × (String → Bool))

/-- Go `strconv.Atoi` digit accumulator. -/
def parseNatAux : Nat → List Char → Option Nat
  | acc, [] => some acc
  | acc, c :: cs =>
    if 48 ≤ c.toNat ∧ c.toNat ≤ 57 then parseNatAux (acc * 10 + (c.toNat - 48)) cs
    else none

/-- Go `strconv.Atoi` (overflow ignored: values are mathematical ints). -/
def atoi (s : String) : Option Int :=
  match s.data with
  | [] => none
  | '-' :: rest =>
    match rest with
    | [] => none
    | _ => (parseNatAux 0 rest).map (fun n => -(n : Int))
  | '+' :: rest =>
    match rest with
    | [] => none
    | _ => (parseNatAux 0 rest).map (fun n => (n : Int))
  | l => (parseNatAux 0 l).map (fun n => (n : Int))

/-- Render a natural number in decimal (digit-list accumulator with fuel). -/
def natToStrAux : Nat → Nat → List Char
  | 0, _ => []
  | fuel + 1, n =>
    if n < 10 then [Char.ofNat (48 + n)]
    else natToStrAux fuel (n / 10) ++ [Char.ofNat (48 + n % 10)]

/-- Go `fmt.Sprintf("%d", i)` for ints. -/
def intToStr (i : Int) : String :=
  match i with
  | .ofNat n => String.mk (natToStrAux (n + 1) n)
  | .negSucc m => String.mk ('-' :: natToStrAux (m + 2) (m + 1))

/-- Go config constants (`part_003`). -/
def MinMTU : Int := 68

def MaxMTU : Int := 65535

def MinQueueLen : Int := 1

def MaxQueueLen : Int := 1000000

/-- Go constant `IngressHandle = "ffff:"`. -/
def IngressHandle : String := "ffff:"

/-- Go `QdiscConfig` (`tc_config.go`). -/
structure QdiscConfig where
  Device : String
  Root : Bool
  Parent : String
  Handle : String
  Kind : String
  Options : List String
  deriving DecidableEq, Repr

/-- Go `QdiscConfig.ReplaceArgs`. -/
def QdiscConfig.ReplaceArgs (qc : QdiscConfig) : List String :=
  ["qdisc", "replace", "dev", qc.Device]
    ++ (if qc.Root then ["root"]
        else if qc.Parent ≠ "" then ["parent", qc.Parent]
        else [])
    ++ (if qc.Handle ≠ "" then ["handle", qc.Handle] else [])
    ++ (if qc.Kind ≠ "" then [qc.Kind] else [])
    ++ qc.Options

/-- Go `splitQdiscSpec`. -/
def splitQdiscSpec : List String → String × List String
  | [] => ("", [])
  | k :: rest => (k, rest)

/-- Go `rootQdiscConfig`. -/
def rootQdiscConfig (device : String) (spec : List String) : QdiscConfig :=
  ⟨device, true, "", "", (splitQdiscSpec spec).1, (splitQdiscSpec spec).2⟩

/-- Go `ingressQdiscConfig`. -/
def ingressQdiscConfig (device : String) : QdiscConfig :=
  ⟨device, false, "", IngressHandle, "ingress", []⟩

/-- Go `FilterConfig` (`tc_config.go`). -/
structure FilterConfig where
  Device : String
  Parent : String
  Protocol : String
  Pref : String
  Kind : String
  Actions : List String
  deriving DecidableEq, Repr

/-- Go `FilterConfig.DeleteArgs`. -/
def FilterConfig.DeleteArgs (fc : FilterConfig) : List String :=
  ["filter", "del", "dev", fc.Device, "parent", fc.Parent, "protocol", fc.Protocol,
   "pref", fc.Pref]

/-- Go `FilterConfig.AddArgs`. -/
def FilterConfig.AddArgs (fc : FilterConfig) : List String :=
  ["filter", "add", "dev", fc.Device, "parent", fc.Parent, "protocol", fc.Protocol,
   "pref", fc.Pref, fc.Kind] ++ fc.Actions

/-- Go `profileContext` (`part_006`). -/
structure profileContext where
  iface : String
  attrs : LinkAttrs
  profile : shapingProfile
  profileName : String
  mtuStr : String
  queueLength : String
  desiredMTU : Int
  desiredQueueLen : Int
  signature : String
  ifbName : String
  deriving DecidableEq, Repr

/-- Go `deriveProfileParameters` (`part_006`). -/
def deriveProfileParameters (attrs : LinkAttrs) (profile : shapingProfile) : String × String :=
  (if profile.mtuOverride ≠ "" then profile.mtuOverride else intToStr attrs.mtu,
   profile.queueLength)

/-- Go `isAlreadyConfigured` (`part_006`): the recorded signature matches and
the derived IFB exists and is UP. -/
def isAlreadyConfigured (w : ShaperWorld) (applied : String → Option String)
    (iface sig : String) : Bool :=
  match applied iface with
  | none => false
  | some prev =>
    if prev ≠ sig then false
    else
      match w.linkByName (truncateIfb (ifbPre ++ iface)) with
      | .found attrs => attrs.up
      | _ => false

/-- Result of Go `buildProfileContext`: `(ctx, skip, error)` collapsed. -/
inductive BuildResult where
  | err (e : TErr)
  | skip
  | ctx (pc : profileContext)
  deriving DecidableEq, Repr

/-- Go `buildProfileContext` (`part_006`): validate input, derive parameters,
compute the signature, apply the skip check, then parse/validate MTU and
queue length. -/
def buildProfileContext (w : ShaperWorld) (applied : String → Option String)
    (attrs : LinkAttrs) (profile : shapingProfile) (profileName : String) : BuildResult :=
  if attrs.name = "" then .err ⟨.recoverable, "link name missing for profile"⟩
  else
    let iface := attrs.name
    let params := deriveProfileParameters attrs profile
    let signature := makeSignature params.1 params.2 profile
    if isAlreadyConfigured w applied iface signature then .skip
    else
      match atoi params.1 with
      | none => .err ⟨.recoverable, "parse mtu"⟩
      | some desiredMTU =>
        if desiredMTU < MinMTU ∨ MaxMTU < desiredMTU then
          .err ⟨.recoverable, "mtu out of range"⟩
        else
          match atoi params.2 with
          | none => .err ⟨.recoverable, "parse qlen"⟩
          | some desiredQueueLen =>
            if desiredQueueLen < MinQueueLen ∨ MaxQueueLen < desiredQueueLen then
              .err ⟨.recoverable, "queue length out of range"⟩
            else
              .ctx ⟨iface, attrs, profile, profileName, params.1, params.2,
                desiredMTU, desiredQueueLen, signature, truncateIfb (ifbPre ++ iface)⟩

/-- Go `configureLinkParamsStep` (`shaper_steps.go`). -/
def configureLinkParamsStep (w : ShaperWorld) (pc : profileContext) :
    Option TErr × List Action :=
  if pc.attrs.mtu = pc.desiredMTU ∧ pc.attrs.txqlen = pc.desiredQueueLen then (none, [])
  else
    match w.linkByName pc.iface with
    | .found _ =>
      let mtuPart : Option TErr × List Action :=
        if pc.attrs.mtu ≠ pc.desiredMTU then
          if w.linkSetMTUOk pc.iface pc.desiredMTU then
            (none, [.linkSetMTU pc.iface pc.desiredMTU])
          else (some ⟨.recoverable, "set mtu"⟩, [.linkSetMTU pc.iface pc.desiredMTU])
        else (none, [])
      match mtuPart with
      | (some e, acts) => (some e, acts)
      | (none, acts) =>
        if pc.attrs.txqlen ≠ pc.desiredQueueLen then
          if w.linkSetTxQLenOk pc.iface pc.desiredQueueLen then
            (none, acts ++ [.linkSetTxQLen pc.iface pc.desiredQueueLen])
          else
            (some ⟨.recoverable, "set tx queue len"⟩,
             acts ++ [.linkSetTxQLen pc.iface pc.desiredQueueLen])
        else (none, acts)
    | _ => (some ⟨.recoverable, "lookup link"⟩, [])

/-- Go `configureRootQdiscStep` (`shaper_steps.go`). -/
def configureRootQdiscStep (w : ShaperWorld) (pc : profileContext) :
    Option TErr × List Action :=
  if pc.profile.rootQdisc.length = 0 then (none, [])
  else
    let args := (rootQdiscConfig pc.iface pc.profile.rootQdisc).ReplaceArgs
    if w.runOk "tc" args then (none, [.runCmd "tc" args])
    else (some ⟨.recoverable, "configure root qdisc"⟩, [.runCmd "tc" args])

/-- Continuation of Go `ensureIfb` once the link is present: bring flags UP
if needed. -/
def ensureIfbUp (w : ShaperWorld) (name : String) (acc : List Action)
    (attrs : LinkAttrs) : Option TErr × List Action :=
  if attrs.up then (none, acc)
  else
    let upCmd := ["link", "set", name, "up"]
    if w.runOk "ip" upCmd then (none, acc ++ [.runCmd "ip" upCmd])
    else (some ⟨.recoverable, "set ifb up"⟩, acc ++ [.runCmd "ip" upCmd])

/-- Continuation of Go `ensureIfb` once the link is present: parse the
desired parameters, reconcile MTU/qlen, then bring the link UP. -/
def ensureIfbParams (w : ShaperWorld) (name mtu qlen : String) (attrs : LinkAttrs)
    (acc : List Action) : Option TErr × List Action :=
  match atoi mtu with
  | none => (some ⟨.recoverable, "parse ifb mtu"⟩, acc)
  | some desiredMTU =>
    match atoi qlen with
    | none => (some ⟨.recoverable, "parse ifb qlen"⟩, acc)
    | some desiredQueueLen =>
      if attrs.mtu ≠ desiredMTU ∨ attrs.txqlen ≠ desiredQueueLen then
        let setCmd := ["link", "set", name, "qlen", qlen, "mtu", mtu]
        if w.runOk "ip" setCmd then
          let attrs2 :=
            match w.linkByNameAfterSet name with
            | .found a => a
            | _ => attrs
          ensureIfbUp w name (acc ++ [.runCmd "ip" setCmd]) attrs2
        else (some ⟨.recoverable, "update ifb parameters"⟩, acc ++ [.runCmd "ip" setCmd])
      else ensureIfbUp w name acc attrs

/-- Go `ensureIfb` (`ifb_manager.go`): create the IFB when it is missing,
then reconcile its parameters and bring it UP. -/
def ensureIfb (w : ShaperWorld) (name mtu qlen : String) : Option TErr × List Action :=
  match w.linkByName name with
  | .found attrs => ensureIfbParams w name mtu qlen attrs []
  | .notFound =>
    let addCmd := ["link", "add", "name", name, "type", "ifb"]
    if w.runOk "ip" addCmd then
      match w.linkByNameAfterCreate name with
      | .found attrs => ensureIfbParams w name mtu qlen attrs [.runCmd "ip" addCmd]
      | _ => (some ⟨.recoverable, "lookup ifb after create"⟩, [.runCmd "ip" addCmd])
    else (some ⟨.recoverable, "create ifb"⟩, [.runCmd "ip" addCmd])
  | .failed => (some ⟨.recoverable, "lookup ifb"⟩, [])

/-- Go `configureIngressAndIfbStep` (`shaper_steps.go`): ingress qdisc, IFB,
IFB root qdisc, then the mirred redirect filter (delete ignored, add
checked). -/
def configureIngressAndIfbStep (w : ShaperWorld) (pc : profileContext) :
    Option TErr × List Action :=
  let ingressArgs := (ingressQdiscConfig pc.iface).ReplaceArgs
  if w.runOk "tc" ingressArgs then
    let acc0 := [Action.runCmd "tc" ingressArgs]
    match ensureIfb w pc.ifbName pc.mtuStr pc.queueLength with
    | (some e, acts) => (some e, acc0 ++ acts)
    | (none, acts) =>
      let acc1 := acc0 ++ acts
      let ifbPart : Option TErr × List Action :=
        if 0 < pc.profile.ifbQdisc.length then
          let args := (rootQdiscConfig pc.ifbName pc.profile.ifbQdisc).ReplaceArgs
          if w.runOk "tc" args then (none, [.runCmd "tc" args])
          else (some ⟨.recoverable, "configure ifb root qdisc"⟩, [.runCmd "tc" args])
        else (none, [])
      match ifbPart with
      | (some e, acts2) => (some e, acc1 ++ acts2)
      | (none, acts2) =>
        let acc2 := acc1 ++ acts2
        let fc : FilterConfig :=
          ⟨pc.iface, IngressHandle, "all", "1", "matchall",
           ["action", "mirred", "egress", "redirect", "dev", pc.ifbName]⟩
        let acc3 := acc2 ++ [Action.runCmd "tc" fc.DeleteArgs]
        if w.runOk "tc" fc.AddArgs then (none, acc3 ++ [.runCmd "tc" fc.AddArgs])
        else (some ⟨.recoverable, "replace filter"⟩, acc3 ++ [.runCmd "tc" fc.AddArgs])
  else (some ⟨.recoverable, "configure ingress qdisc"⟩, [.runCmd "tc" ingressArgs])

/-- Go `mapDesiredToReadKey` (`part_005`). -/
def mapDesiredToReadKey (name : String) : String :=
  let key := strToLower (strTrimSpace name)
  if key = "rx" ∨ key = "rx-checksum" ∨ key = "rx_checksum" then "rx-checksumming"
  else if key = "tx" ∨ key = "tx-checksum" ∨ key = "tx_checksum" then "tx-checksumming"
  else if key = "sg" ∨ key = "scatter-gather" then "scatter-gather"
  else if key = "tso" then "tcp-segmentation-offload"
  else if key = "gso" then "generic-segmentation-offload"
  else if key = "gro" then "generic-receive-offload"
  else if key = "lro" then "large-receive-offload"
  else if key = "ufo" then "udp-fragmentation-offload"
  else if key = "tx-gso-partial" then "tx-gso-partial"
  else if key = "tx-scatter-gather" then "tx-scatter-gather"
  else ""

/-- Go `strings.EqualFold` (ASCII). -/
def strEqFold (a b : String) : Bool := strToLower a = strToLower b

/-- Go `ensureOffloads` (`part_005`): read features once, batch only
mismatched non-fixed targets into one `ethtool -K` call; on read failure
fall back to per-setting calls.  All errors are optional and swallowed, so
only the command actions remain. -/
def ensureOffloads (w : ShaperWorld) (iface : String)
    (settings : List offloadSetting) : List Action :=
  if settings.length = 0 then []
  else
    match w.ethtoolRead iface with
    | none =>
      settings.map (fun st =>
        Action.runCmd "ethtool" ["-K", iface, normalizeSetFeatureName st.feature, st.state])
    | some (cur, fixed) =>
      let batched := settings.foldl (fun acc st =>
        let readKey := mapDesiredToReadKey st.feature
        let setKey := normalizeSetFeatureName st.feature
        if readKey = "" ∨ setKey = "" then acc
        else if fixed readKey then acc
        else
          match cur readKey with
          | some curState => if strEqFold curState st.state then acc else acc ++ [setKey, st.state]
          | none => acc ++ [setKey, st.state]) []
      if batched.length = 0 then []
      else [Action.runCmd "ethtool" (["-K", iface] ++ batched)]

/-- Go `ensureOffloadsStep` (`shaper_steps.go`): always returns nil. -/
def ensureOffloadsStep (w : ShaperWorld) (pc : profileContext) :
    Option TErr × List Action :=
  (none, ensureOffloads w pc.iface pc.profile.offloads)

/-- Go `runProfileSteps` (`part_006`): run steps in order, stop at the first
error. -/
def runProfileSteps (w : ShaperWorld) (pc : profileContext) :
    List (ShaperWorld → profileContext → Option TErr × List Action) →
      Option TErr × List Action
  | [] => (none, [])
  | step :: rest =>
    match step w pc with
    | (some e, acts) => (some e, acts)
    | (none, acts) =>
      let r := runProfileSteps w pc rest
      (r.1, acts ++ r.2)

/-- The fixed step list of Go `configureProfile`. -/
def profileSteps : List (ShaperWorld → profileContext → Option TErr × List Action) :=
  [configureLinkParamsStep, configureRootQdiscStep, configureIngressAndIfbStep,
   ensureOffloadsStep]

/-- Result of one `configureProfile` call: the returned error, the recorded
actions and the resulting applied-signature map. -/
structure ConfigureResult where
  err : Option TErr
  actions : List Action
  applied : String → Option String

/-- Go `configureProfile` (`part_006`): build the context (skip or fail
early), run the four steps, and commit the signature only when every step
returned nil. -/
def configureProfile (w : ShaperWorld) (applied : String → Option String)
    (attrs : LinkAttrs) (profile : shapingProfile) (profileName : String) :
    ConfigureResult :=
  match buildProfileContext w applied attrs profile profileName with
  | .err e => ⟨some e, [], applied⟩
  | .skip => ⟨none, [], applied⟩
  | .ctx pc =>
    match runProfileSteps w pc profileSteps with
    | (some e, acts) => ⟨some e, acts, applied⟩
    | (none, acts) =>
      ⟨none, acts, fun n => if n = pc.iface then some pc.signature else applied n⟩

/-- C3.  Idempotent skip check: whenever the recorded applied-signature for
an interface equals the newly computed signature and the `LinkByName` lookup
of the truncated `ifb4` name returns a link whose flags include UP,
`configureProfile` returns nil, records no external command and no netlink
mutation, and leaves the applied-signature map unchanged. -/
theorem configureProfile_skip_spec (w : ShaperWorld) (applied : String → Option String)
    (attrs : LinkAttrs) (profile : shapingProfile) (profileName : String)
    (hname : attrs.name ≠ "")
    (hsig : applied attrs.name =
      some (makeSignature (deriveProfileParameters attrs profile).1
        (deriveProfileParameters attrs profile).2 profile))
    (l : LinkAttrs)
    (hlook : w.linkByName (truncateIfb (ifbPre ++ attrs.name)) = .found l)
    (hup : l.up = true) :
    configureProfile w applied attrs profile profileName = ⟨none, [], applied⟩ := by
  have hskip : isAlreadyConfigured w applied attrs.name
      (makeSignature (deriveProfileParameters attrs profile).1
        (deriveProfileParameters attrs profile).2 profile) = true := by
    unfold isAlreadyConfigured
    rw [hsig, hlook]
    simp [hup]
  unfold configureProfile buildProfileContext
  simp only [hname, if_false, hskip, if_true]

/-- Witness inputs for C3: a loopback-style profile recorded as applied, the
IFB present and UP. -/
def wSkip : ShaperWorld :=
  ⟨fun n => if n = "ifb4eth0" then .found ⟨"ifb4eth0", 7, false, true, 1500, 10001⟩ else .notFound,
   fun _ => .notFound, fun _ => .notFound, fun _ _ => true, fun _ _ => true,
   fun _ _ => true, fun _ => none⟩

/-- The profile used by the C3 witness. -/
def profSkip : shapingProfile :=
  ⟨"10001", ["cake", "unlimited", "besteffort"], ["cake", "unlimited", "diffserv4"],
   [⟨"rx", "on"⟩, ⟨"tx", "on"⟩, ⟨"gro", "off"⟩], ""⟩

/-- The applied-signature map used by the C3 witness. -/
def appliedSkip : String → Option String :=
  fun n => if n = "eth0" then some (makeSignature "1500" "10001" profSkip) else none

/-- Witness for C3: on the concrete recorded state the call is a no-op. -/
theorem configureProfile_skip_spec_witness :
    configureProfile wSkip appliedSkip ⟨"eth0", 2, false, true, 1500, 10001⟩ profSkip
      "external-physical" = ⟨none, [], appliedSkip⟩ :=
  configureProfile_skip_spec wSkip appliedSkip ⟨"eth0", 2, false, true, 1500, 10001⟩
    profSkip "external-physical" (by decide)
    (by
      show appliedSkip "eth0" = some (makeSignature
        (deriveProfileParameters ⟨"eth0", 2, false, true, 1500, 10001⟩ profSkip).1
        (deriveProfileParameters ⟨"eth0", 2, false, true, 1500, 10001⟩ profSkip).2 profSkip)
      decide)
    ⟨"ifb4eth0", 7, false, true, 1500, 10001⟩ (by decide) (by decide)

/-- C4.  Step order and signature commit atomicity: for every interface not
taken by the skip check (context built), `configureProfile` runs the four
steps link-params, root-qdisc, ingress+IFB, offloads in that fixed order,
stops at and returns the first step error; the applied-signature entry is
written exactly when every step returns nil, and on any step error the map
is left unchanged. -/
theorem configureProfile_step_order_spec (w : ShaperWorld)
    (applied : String → Option String) (attrs : LinkAttrs)
    (profile : shapingProfile) (profileName : String) (pc : profileContext)
    (hctx : buildProfileContext w applied attrs profile profileName = .ctx pc) :
    (ensureOffloadsStep w pc).1 = none ∧
    (∀ e, (configureLinkParamsStep w pc).1 = some e →
      configureProfile w applied attrs profile profileName =
        ⟨some e, (configureLinkParamsStep w pc).2, applied⟩) ∧
    (∀ e, (configureLinkParamsStep w pc).1 = none →
      (configureRootQdiscStep w pc).1 = some e →
      configureProfile w applied attrs profile profileName =
        ⟨some e, (configureLinkParamsStep w pc).2 ++ (configureRootQdiscStep w pc).2,
         applied⟩) ∧
    (∀ e, (configureLinkParamsStep w pc).1 = none →
      (configureRootQdiscStep w pc).1 = none →
      (configureIngressAndIfbStep w pc).1 = some e →
      configureProfile w applied attrs profile profileName =
        ⟨some e, (configureLinkParamsStep w pc).2 ++ ((configureRootQdiscStep w pc).2 ++
          (configureIngressAndIfbStep w pc).2), applied⟩) ∧
    ((configureLinkParamsStep w pc).1 = none →
      (configureRootQdiscStep w pc).1 = none →
      (configureIngressAndIfbStep w pc).1 = none →
      configureProfile w applied attrs profile profileName =
        ⟨none, (configureLinkParamsStep w pc).2 ++ ((configureRootQdiscStep w pc).2 ++
          ((configureIngressAndIfbStep w pc).2 ++ (ensureOffloadsStep w pc).2)),
         fun n => if n = pc.iface then some pc.signature else applied n⟩) := by
  have hrw : configureProfile w applied attrs profile profileName =
      (match runProfileSteps w pc profileSteps with
       | (some e, acts) => ⟨some e, acts, applied⟩
       | (none, acts) =>
         ⟨none, acts, fun n => if n = pc.iface then some pc.signature else applied n⟩) := by
    unfold configureProfile
    rw [hctx]
  refine ⟨rfl, ?_, ?_, ?_, ?_⟩
  · intro e h1
    rcases hS1 : configureLinkParamsStep w pc with ⟨e1, a1⟩
    rw [hS1] at h1
    simp only at h1
    subst h1
    rw [hrw]
    simp [profileSteps, runProfileSteps, hS1]
  · intro e h1 h2
    rcases hS1 : configureLinkParamsStep w pc with ⟨e1, a1⟩
    rcases hS2 : configureRootQdiscStep w pc with ⟨e2, a2⟩
    rw [hS1] at h1
    rw [hS2] at h2
    simp only at h1 h2
    subst h1
    subst h2
    rw [hrw]
    simp [profileSteps, runProfileSteps, hS1, hS2]
  · intro e h1 h2 h3
    rcases hS1 : configureLinkParamsStep w pc with ⟨e1, a1⟩
    rcases hS2 : configureRootQdiscStep w pc with ⟨e2, a2⟩
    rcases hS3 : configureIngressAndIfbStep w pc with ⟨e3, a3⟩
    rw [hS1] at h1
    rw [hS2] at h2
    rw [hS3] at h3
    simp only at h1 h2 h3
    subst h1
    subst h2
    subst h3
    rw [hrw]
    simp [profileSteps, runProfileSteps, hS1, hS2, hS3]
  · intro h1 h2 h3
    rcases hS1 : configureLinkParamsStep w pc with ⟨e1, a1⟩
    rcases hS2 : configureRootQdiscStep w pc with ⟨e2, a2⟩
    rcases hS3 : configureIngressAndIfbStep w pc with ⟨e3, a3⟩
    rw [hS1] at h1
    rw [hS2] at h2
    rw [hS3] at h3
    simp only at h1 h2 h3
    subst h1
    subst h2
    subst h3
    rw [hrw]
    simp [profileSteps, runProfileSteps, hS1, hS2, hS3, ensureOffloadsStep]

/-- An all-success world: every lookup finds an UP link with MTU 1500 and
qlen 10001, every command and mutation succeeds, ethtool reads fail (so the
offload step falls back to per-setting calls). -/
def wOk : ShaperWorld :=
  ⟨fun n => .found ⟨n, 1, false, true, 1500, 10001⟩,
   fun n => .found ⟨n, 1, false, true, 1500, 10001⟩,
   fun n => .found ⟨n, 1, false, true, 1500, 10001⟩,
   fun _ _ => true, fun _ _ => true, fun _ _ => true, fun _ => none⟩

/-- The empty applied-signature map. -/
def applied0 : String → Option String := fun _ => none

/-- The profile context `buildProfileContext` produces for `eth1` under
`wOk` and `profSkip`. -/
def pcW : profileContext :=
  ⟨"eth1", ⟨"eth1", 3, false, true, 1500, 10001⟩, profSkip, "external-physical",
   "1500", "10001", 1500, 10001, makeSignature "1500" "10001" profSkip, "ifb4eth1"⟩

/-- Witness for C4: on a world where every step succeeds, the four step
action lists are concatenated in order and the signature is committed. -/
theorem configureProfile_step_order_spec_witness :
    configureProfile wOk applied0 ⟨"eth1", 3, false, true, 1500, 10001⟩ profSkip
      "external-physical" =
      ⟨none, (configureLinkParamsStep wOk pcW).2 ++ ((configureRootQdiscStep wOk pcW).2 ++
        ((configureIngressAndIfbStep wOk pcW).2 ++ (ensureOffloadsStep wOk pcW).2)),
       fun n => if n = pcW.iface then some pcW.signature else applied0 n⟩ :=
  (configureProfile_step_order_spec wOk applied0 ⟨"eth1", 3, false, true, 1500, 10001⟩
    profSkip "external-physical" pcW (by decide)).2.2.2.2 (by decide) (by decide) (by decide)

/-! ## §5 traffic: netlink watcher pending-changes accumulator (`part_008`).

A link update exposes up to two name sources (`update.Attrs()` and
`update.Link.Attrs()`); a missing or empty name is embedded as `""`.
Address updates carry only a link index, resolved through the netlink
`LinkByIndex` oracle. -/

/-- The name information carried by a Go `netlink.LinkUpdate`. -/
structure LinkUpdate where
  attrsName : String
  linkName : String
  deriving DecidableEq, Repr

/-- Netlink oracle available to the watcher. -/
structure WatchWorld where
  linkByIndex : Int → LinkLookup

/-- Go `pendingChanges` state (mutex elided: calls are serialized). -/
structure PendingChanges where
  all : Bool
  names : List String
  deriving DecidableEq, Repr

/-- Go `pendingChanges.AddLink`. -/
def pendingAddLink (p : PendingChanges) (u : LinkUpdate) : PendingChanges :=
  if p.all then p
  else if u.attrsName ≠ "" then { p with names := insertName p.names u.attrsName }
  else if u.linkName ≠ "" then { p with names := insertName p.names u.linkName }
  else ⟨true, []⟩

/-- Go `pendingChanges.AddAddr`. -/
def pendingAddAddr (w : WatchWorld) (p : PendingChanges) (linkIndex : Int) :
    PendingChanges :=
  if p.all then p
  else
    match w.linkByIndex linkIndex with
    | .found a => if a.name ≠ "" then { p with names := insertName p.names a.name }
                  else ⟨true, []⟩
    | _ => ⟨true, []⟩

/-- Go `pendingChanges.clear` — the drain reset. -/
def pendingClear : PendingChanges := ⟨false, []⟩

/-- The `applyInterfaces` invocation chosen by a reapply tick. -/
inductive ApplyCall where
  | noApply
  | applyAllLinks
  | applySome (names : List String)
  deriving DecidableEq, Repr

/-- Go `applyPending` (`part_008`): snapshot the pending state and pick the
selector (`applyAllLinks` stands for the nil all-interfaces selector). -/
def applyPendingCall (p : PendingChanges) : ApplyCall :=
  if p.all then .applyAllLinks
  else if p.names.length = 0 then .noApply
  else .applySome p.names

/-- C7.  PendingChanges escalation and persistence: a link update with no
resolvable name (or an address update whose link index cannot be resolved)
sets `all` and empties the name set; once `all` is set every subsequent
AddLink/AddAddr leaves the state unchanged until the next drain; and a
reapply tick observing `all` invokes `applyInterfaces` with the nil
(all-interfaces) selector. -/
theorem pendingChanges_spec :
    (∀ (p : PendingChanges) (u : LinkUpdate),
      (p.all = true → p.names = []) → u.attrsName = "" → u.linkName = "" →
      (pendingAddLink p u).all = true ∧ (pendingAddLink p u).names = []) ∧
    (∀ (w : WatchWorld) (p : PendingChanges) (idx : Int),
      (p.all = true → p.names = []) →
      (match w.linkByIndex idx with
       | .found a => a.name = ""
       | _ => True) →
      (pendingAddAddr w p idx).all = true ∧ (pendingAddAddr w p idx).names = []) ∧
    (∀ (p : PendingChanges) (u : LinkUpdate), p.all = true → pendingAddLink p u = p) ∧
    (∀ (w : WatchWorld) (p : PendingChanges) (idx : Int), p.all = true →
      pendingAddAddr w p idx = p) ∧
    (∀ p : PendingChanges, p.all = true → applyPendingCall p = .applyAllLinks) := by
  refine ⟨?_, ?_, ?_, ?_, ?_⟩
  · intro p u hinv ha hl
    by_cases hall : p.all
    · simp [pendingAddLink, hall, hinv hall]
    · simp [pendingAddLink, hall, ha, hl]
  · intro w p idx hinv hres
    by_cases hall : p.all
    · simp [pendingAddAddr, hall, hinv hall]
    · cases hlook : w.linkByIndex idx with
      | found a =>
        rw [hlook] at hres
        simp only at hres
        simp [pendingAddAddr, hall, hlook, hres]
      | notFound => simp [pendingAddAddr, hall, hlook]
      | failed => simp [pendingAddAddr, hall, hlook]
  · intro p u hall
    simp [pendingAddLink, hall]
  · intro w p idx hall
    simp [pendingAddAddr, hall]
  · intro p hall
    simp [applyPendingCall, hall]

/-- Witness for C7: an unresolvable link update escalates the concrete
pending state, and the escalated state drives an apply-all pass. -/
theorem pendingChanges_spec_witness :
    ((pendingAddLink ⟨false, ["eth0"]⟩ ⟨"", ""⟩).all = true ∧
      (pendingAddLink ⟨false, ["eth0"]⟩ ⟨"", ""⟩).names = []) ∧
    applyPendingCall ⟨true, []⟩ = .applyAllLinks :=
  ⟨pendingChanges_spec.1 ⟨false, ["eth0"]⟩ ⟨"", ""⟩ (by simp) rfl rfl,
   pendingChanges_spec.2.2.2.2 ⟨true, []⟩ rfl⟩

/-! ## §6 route: optimizer segments and error aggregation
(`internal/route/optimizer.go`, `part_002`).

`ip` invocations are I/O: `ipShow` answers `ip route show …` with output
lines (`none` on command failure), `ipChangeOk` reports success of an
`ip route change …` invocation.  `primaryNIC` is the result of
`getPrimaryNIC` (`none` on failure) and `congctl` the result of
`getCurrentCongestionControl` (`none` on failure). -/

/-- Go `WindowConfig` (`part_002`). -/
structure WindowConfig where
  MSSBytes : Int
  InitCwndBytes : Int
  InitRwndBytes : Int
  LoopbackWindowBytes : Int
  deriving DecidableEq, Repr

/-- Go `defaultMSS = 1460`. -/
def defaultMSS : Int := 1460

/-- Go `WindowConfig.WithDefaults`. -/
def windowConfigWithDefaults (cfg : WindowConfig) : WindowConfig :=
  if cfg.MSSBytes ≤ 0 then { cfg with MSSBytes := defaultMSS } else cfg

/-- Go `bytesToSegments` (`part_002`). -/
def bytesToSegments (bytes mss : Int) : Int :=
  if mss ≤ 0 ∨ bytes ≤ 0 then 0 else (bytes + mss - 1) / mss

/-- The four segment counts computed by Go `NewOptimizer`
(`optimizer.go`): all conversions use the single `cfg.MSSBytes`. -/
structure OptimizerParams where
  initCwndSegments : Int
  initRwndSegments : Int
  loopbackCwndSegments : Int
  loopbackRwndSegments : Int
  deriving DecidableEq, Repr

/-- Go `NewOptimizer` segment computation. -/
def newOptimizerParams (cfg : WindowConfig) : OptimizerParams :=
  let cfg := windowConfigWithDefaults cfg
  let lws := bytesToSegments cfg.LoopbackWindowBytes cfg.MSSBytes
  ⟨bytesToSegments cfg.InitCwndBytes cfg.MSSBytes,
   bytesToSegments cfg.InitRwndBytes cfg.MSSBytes, lws, lws⟩

/-- Go `params` (`part_002`). -/
structure RouteParams where
  mtu : Int
  initCwnd : Int
  initRwnd : Int
  congctl : String
  deriving DecidableEq, Repr

/-- Go `params.args`. -/
def RouteParams.args (p : RouteParams) : List String :=
  ["mtu", intToStr p.mtu, "initcwnd", intToStr p.initCwnd,
   "initrwnd", intToStr p.initRwnd, "fastopen_no_cookie", "1"]
    ++ (if p.congctl ≠ "" then ["congctl", "lock", p.congctl] else [])

/-- The `newParams(65520, loopbackCwndSegments, loopbackRwndSegments,
"cubic")` of Go `optimizeLoopback`. -/
def loopbackRouteParams (op : OptimizerParams) : RouteParams :=
  ⟨65520, op.loopbackCwndSegments, op.loopbackRwndSegments, "cubic"⟩

/-- Counterexample to C6 as stated: with the route window configuration the
daemon actually builds (`main.go` never sets `MSSBytes`, so `WithDefaults`
makes it 1460) and the claim's loopback window of 16 MiB, the loopback
category is applied with ceil(16777216 / 1460) = 11492 segments, not
ceil(16777216 / 65520) = 257: the conversion uses the shared `cfg.MSSBytes`,
never a loopback MSS of 65520. -/
theorem loopbackSegments_counterexample :
    (newOptimizerParams ⟨0, 146000, 146000, 16 * 1024 * 1024⟩).loopbackCwndSegments = 11492 ∧
    loopbackRouteParams (newOptimizerParams ⟨0, 146000, 146000, 16 * 1024 * 1024⟩) =
      ⟨65520, 11492, 11492, "cubic"⟩ ∧
    (11492 : Int) ≠ 257 := by
  refine ⟨by decide, by decide, by decide⟩

/-- C6 (amended).  `bytesToSegments` computes `ceil(bytes / mss)` with
non-positive `mss` or `bytes` yielding 0; `NewOptimizer` converts the
loopback window with the shared `cfg.MSSBytes` (defaulted to 1460), not with
a loopback MSS, and the loopback route category is applied with MTU 65520
and that segment count; with `loopbackWindowBytes = 16 * 1024 * 1024` the
count is 11492 under the default MSS, while `ceil(16777216 / 65520) = 257`
would require `MSSBytes = 65520`. -/
theorem bytesToSegments_spec :
    (∀ bytes mss : Int, mss ≤ 0 ∨ bytes ≤ 0 → bytesToSegments bytes mss = 0) ∧
    (∀ bytes mss : Int, 0 < bytes → 0 < mss →
      bytesToSegments bytes mss = ⌈(bytes : ℚ) / (mss : ℚ)⌉) ∧
    (∀ cfg : WindowConfig,
      (newOptimizerParams cfg).loopbackCwndSegments =
        bytesToSegments cfg.LoopbackWindowBytes (windowConfigWithDefaults cfg).MSSBytes ∧
      loopbackRouteParams (newOptimizerParams cfg) =
        ⟨65520, (newOptimizerParams cfg).loopbackCwndSegments,
         (newOptimizerParams cfg).loopbackCwndSegments, "cubic"⟩) ∧
    (newOptimizerParams ⟨0, 146000, 146000, 16 * 1024 * 1024⟩).loopbackCwndSegments = 11492 ∧
    bytesToSegments (16 * 1024 * 1024) 65520 = 257 := by
  refine ⟨?_, ?_, ?_, by decide, by decide⟩
  · intro bytes mss h
    simp [bytesToSegments, h]
  · intro bytes mss hb hm
    have hmq : mss * ((bytes + mss - 1) / mss) + (bytes + mss - 1) % mss = bytes + mss - 1 :=
      Int.ediv_add_emod _ _
    have hr0 : 0 ≤ (bytes + mss - 1) % mss := Int.emod_nonneg _ (ne_of_gt hm)
    have hrm : (bytes + mss - 1) % mss < mss := Int.emod_lt_of_pos _ hm
    have hmQ : (0 : ℚ) < (mss : ℚ) := by exact_mod_cast hm
    have hcond : ¬ (mss ≤ 0 ∨ bytes ≤ 0) := by push_neg; exact ⟨hm, hb⟩
    rw [bytesToSegments, if_neg hcond, eq_comm, Int.ceil_eq_iff]
    constructor
    · rw [lt_div_iff₀ hmQ]
      have h : ((bytes + mss - 1) / mss - 1) * mss < bytes := by nlinarith [hmq, hr0, hrm]
      exact_mod_cast h
    · rw [div_le_iff₀ hmQ]
      have h : bytes ≤ ((bytes + mss - 1) / mss) * mss := by nlinarith [hmq, hr0, hrm]
      exact_mod_cast h
  · intro cfg
    refine ⟨?_, rfl⟩
    unfold newOptimizerParams windowConfigWithDefaults
    by_cases h : cfg.MSSBytes ≤ 0 <;> simp [h]

/-- Witness for C6 (amended): the ceiling characterization evaluated at the
claim's concrete loopback inputs. -/
theorem bytesToSegments_spec_witness :
    (0 : Int) < 16 * 1024 * 1024 ∧ (0 : Int) < 65520 ∧
    bytesToSegments (16 * 1024 * 1024) 65520 = ⌈((16 * 1024 * 1024 : Int) : ℚ) / ((65520 : Int) : ℚ)⌉ :=
  ⟨by decide, by decide,
   bytesToSegments_spec.2.1 (16 * 1024 * 1024) 65520 (by decide) (by decide)⟩

/-- Accumulator for `strFields`. -/
def fieldsAux : List Char → List Char → List String
  | acc, [] => if acc.isEmpty then [] else [String.mk acc.reverse]
  | acc, c :: cs =>
    if c.isWhitespace then
      if acc.isEmpty then fieldsAux [] cs
      else String.mk acc.reverse :: fieldsAux [] cs
    else fieldsAux (c :: acc) cs

/-- Go `strings.Fields`. -/
def strFields (s : String) : List String := fieldsAux [] s.data

/-- The token cleaner inside Go `cleanRouteLine` (fuel = remaining length):
drop `mtu`, `initcwnd`, `initrwnd`, `fastopen_no_cookie` together with their
value, and `congctl lock VALUE` triples. -/
def cleanTokensAux : Nat → List String → List String
  | 0, _ => []
  | _, [] => []
  | fuel + 1, t :: rest =>
    if t = "mtu" ∨ t = "initcwnd" ∨ t = "initrwnd" ∨ t = "fastopen_no_cookie" then
      match rest with
      | [] => []
      | _ :: rest2 => cleanTokensAux fuel rest2
    else if t = "congctl" then
      match rest with
      | "lock" :: _ :: rest3 => cleanTokensAux fuel rest3
      | _ => t :: cleanTokensAux fuel rest
    else t :: cleanTokensAux fuel rest

/-- See `cleanTokensAux`. -/
def cleanTokens (l : List String) : List String := cleanTokensAux l.length l

/-- Go `cleanRouteLine` (`optimizer.go`). -/
def cleanRouteLine (line : String) : String :=
  let tokens := strFields line
  if tokens.isEmpty then "" else String.intercalate " " (cleanTokens tokens)

/-- Scan fields for `dev X`: the inner loop of Go `extractDevice`. -/
def findDev : List String → Option String
  | [] => none
  | "dev" :: d :: _ => if d = "" then none else some d
  | _ :: rest => findDev rest

/-- Go `extractDevice` (`part_002`) applied to a single route line. -/
def extractDevice (line : String) : Option String := findDev (strFields line)

/-- Go `shouldOptimizeLoopback` (`part_002`). -/
def shouldOptimizeLoopback (line : String) : Bool :=
  if line = "" ∨ ¬ strHasPre line "local " then false
  else
    match extractDevice line with
    | none => false
    | some device => device = "lo"

/-- Go `shouldOptimizeLocal` (`part_002`). -/
def shouldOptimizeLocal (line : String) : Bool :=
  if line = "" ∨ ¬ strHasPre line "local " then false
  else if strContainsSub line "broadcast" then false
  else if strContainsSub line "linkdown" then false
  else
    match extractDevice line with
    | some device => device ≠ "lo"
    | none => true

/-- Go `shouldOptimizeNIC` (`part_002`). -/
def shouldOptimizeNIC (line nic : String) : Bool :=
  if line = "" ∨ strContainsSub line "linkdown" ∨ strContainsSub line "congctl" then false
  else
    match extractDevice line with
    | none => false
    | some device => device = nic

/-- Oracles for the route optimizer (see the section comment). -/
structure RouteWorld where
  ipShow : List String → Option (List String)
  ipChangeOk : List String → Bool
  primaryNIC : Option String
  congctl : Option String

/-- Go `applyRoutes` first-error tracking: clean each route line and issue
`ip route change`; remember the first failure, keep going. -/
def applyRoutesFirstErr (w : RouteWorld) (routes : List String)
    (params : List String) : Option String :=
  match routes with
  | [] => none
  | route :: rest =>
    if route = "" then applyRoutesFirstErr w rest params
    else
      let routeLine := cleanRouteLine route
      if routeLine = "" then applyRoutesFirstErr w rest params
      else
        let args := ["route", "change"] ++ strFields routeLine ++ params
        if w.ipChangeOk args then applyRoutesFirstErr w rest params
        else some ("ip " ++ String.intercalate " " args)

/-- Go `Optimizer.optimize` on one `routeJob`: fetch, trim+filter, apply;
the fetch error and the apply error are both wrapped Recoverable. -/
def optimizeJob (w : RouteWorld) (routeArgs : List String)
    (filter : String → Bool) (p : RouteParams) (category : String) : Option TErr :=
  match w.ipShow routeArgs with
  | none => some ⟨.recoverable, "fetch " ++ category ++ " routes"⟩
  | some lines =>
    let filtered := (lines.map strTrimSpace).filter filter
    match applyRoutesFirstErr w filtered p.args with
    | some _ => some ⟨.recoverable, "apply " ++ category ++ " route changes"⟩
    | none => none

/-- Go `optimizeLoopback`. -/
def optimizeLoopback (w : RouteWorld) (op : OptimizerParams) : Option TErr :=
  optimizeJob w ["route", "show", "table", "local"] shouldOptimizeLoopback
    (loopbackRouteParams op) "loopback"

/-- Go `optimizeLocal`. -/
def optimizeLocal (w : RouteWorld) (op : OptimizerParams) : Option TErr :=
  optimizeJob w ["route", "show", "table", "local"] shouldOptimizeLocal
    ⟨1500, op.initCwndSegments, op.initRwndSegments, "cubic"⟩ "local"

/-- Go `optimizeNIC`: primary-NIC detection failure is a Recoverable error;
the congestion-control read falls back to `cubic`. -/
def optimizeNIC (w : RouteWorld) (op : OptimizerParams) : Option TErr :=
  match w.primaryNIC with
  | none => some ⟨.recoverable, "failed to detect primary NIC"⟩
  | some nic =>
    if nic = "" then some ⟨.recoverable, "failed to detect primary NIC"⟩
    else
      let congctl := (w.congctl).getD "cubic"
      optimizeJob w ["route", "show"] (fun l => shouldOptimizeNIC l nic)
        ⟨1500, op.initCwndSegments, op.initRwndSegments, congctl⟩ "nic"

/-- Go `Optimizer.Optimize`: the `MultiError.Errors` list after the three
category passes; `ErrorOrNil` is nil exactly when this list is empty. -/
def Optimize (w : RouteWorld) (op : OptimizerParams) : List TErr :=
  (optimizeLoopback w op).toList ++ (optimizeLocal w op).toList ++ (optimizeNIC w op).toList

/-- World for `Shaper.Apply`: the route world plus the outcome of the
`applyInterfaces` pass that follows. -/
structure ApplyWorld where
  route : RouteWorld
  applyInterfacesRes : Option TErr

/-- Go `Shaper.Apply` (`shaper.go`): run the optimizer, log and swallow its
error, and return the `applyInterfaces` result. -/
def ShaperApply (w : ApplyWorld) (op : OptimizerParams) : Option TErr :=
  let _routeErrs := Optimize w.route op
  w.applyInterfacesRes

lemma optimizeJob_recoverable (w : RouteWorld) (routeArgs : List String)
    (filter : String → Bool) (p : RouteParams) (category : String) (e : TErr)
    (h : optimizeJob w routeArgs filter p category = some e) :
    e.category = .recoverable := by
  unfold optimizeJob at h
  cases hs : w.ipShow routeArgs with
  | none =>
    rw [hs] at h
    simp only [Option.some.injEq] at h
    rw [← h]
  | some lines =>
    rw [hs] at h
    simp only at h
    cases ha : applyRoutesFirstErr w ((lines.map strTrimSpace).filter filter) p.args with
    | none => rw [ha] at h; simp at h
    | some msg =>
      rw [ha] at h
      simp only [Option.some.injEq] at h
      rw [← h]

/-- C8.  Route-optimizer error propagation: `Optimize` returns a non-nil
error exactly when at least one of the loopback, local or nic categories
fails; every aggregated error is Recoverable; and `Shaper.Apply` returns
the `applyInterfaces` outcome no matter what the optimizer did, so an
optimizer failure never prevents interface shaping. -/
theorem optimize_apply_spec :
    (∀ (w : RouteWorld) (op : OptimizerParams),
      Optimize w op = [] ↔
        optimizeLoopback w op = none ∧ optimizeLocal w op = none ∧
          optimizeNIC w op = none) ∧
    (∀ (w : RouteWorld) (op : OptimizerParams) (e : TErr),
      e ∈ Optimize w op → e.category = .recoverable) ∧
    (∀ (w : ApplyWorld) (op : OptimizerParams),
      ShaperApply w op = w.applyInterfacesRes) ∧
    (∀ (w w' : ApplyWorld) (op op' : OptimizerParams),
      w.applyInterfacesRes = w'.applyInterfacesRes →
        ShaperApply w op = ShaperApply w' op') := by
  refine ⟨?_, ?_, fun w op => rfl, ?_⟩
  · intro w op
    unfold Optimize
    cases optimizeLoopback w op <;> cases optimizeLocal w op <;>
      cases optimizeNIC w op <;> simp
  · intro w op e he
    unfold Optimize at he
    rcases List.mem_append.mp he with h1 | h2
    · rcases List.mem_append.mp h1 with hl | hc
      · cases hs : optimizeLoopback w op with
        | none => rw [hs] at hl; simp at hl
        | some e0 =>
          rw [hs] at hl
          simp only [Option.toList, List.mem_singleton] at hl
          subst hl
          exact optimizeJob_recoverable _ _ _ _ _ _ hs
      · cases hs : optimizeLocal w op with
        | none => rw [hs] at hc; simp at hc
        | some e0 =>
          rw [hs] at hc
          simp only [Option.toList, List.mem_singleton] at hc
          subst hc
          exact optimizeJob_recoverable _ _ _ _ _ _ hs
    · cases hs : optimizeNIC w op with
      | none => rw [hs] at h2; simp at h2
      | some e0 =>
        rw [hs] at h2
        simp only [Option.toList, List.mem_singleton] at h2
        subst h2
        unfold optimizeNIC at hs
        cases hn : w.primaryNIC with
        | none => rw [hn] at hs; simp only [Option.some.injEq] at hs; rw [← hs]
        | some nic =>
          rw [hn] at hs
          simp only at hs
          by_cases hnic : nic = ""
          · rw [if_pos hnic] at hs
            simp only [Option.some.injEq] at hs
            rw [← hs]
          · rw [if_neg hnic] at hs
            exact optimizeJob_recoverable _ _ _ _ _ _ hs
  · intro w w' op op' h
    unfold ShaperApply
    exact h

/-- A world where every `ip` invocation fails and no primary NIC is found. -/
def wAllFail : RouteWorld := ⟨fun _ => none, fun _ => false, none, none⟩

/-- Witness for C8: with every category failing, `Shaper.Apply` still
returns the `applyInterfaces` outcome, and the first aggregated error is
Recoverable. -/
theorem optimize_apply_spec_witness :
    ShaperApply ⟨wAllFail, none⟩ (newOptimizerParams ⟨0, 146000, 146000, 10 * 1024 * 1024⟩) =
      (⟨wAllFail, none⟩ : ApplyWorld).applyInterfacesRes ∧
    (⟨Category.recoverable, "fetch loopback routes"⟩ : TErr).category = Category.recoverable :=
  ⟨optimize_apply_spec.2.2.1 ⟨wAllFail, none⟩
     (newOptimizerParams ⟨0, 146000, 146000, 10 * 1024 * 1024⟩),
   optimize_apply_spec.2.1 wAllFail
     (newOptimizerParams ⟨0, 146000, 146000, 10 * 1024 * 1024⟩)
     ⟨Category.recoverable, "fetch loopback routes"⟩ (by decide)⟩

end Tcsss
